import Mathlib

/-!
Verification development for the Employee/Task tracking repository.

The repository's client-side code (`EmployeeForm.tsx` containing both the
`EmployeeForm` and `TaskForm` components, `types/employee.ts`, `types/task.ts`,
`services/api.ts`) is embedded shallowly below.  JavaScript strings are
modelled as Lean `String`; the primitive string operations the source uses
(`String.prototype.trim`, `String.prototype.split(',')`,
`Array.prototype.join(', ')`) are given executable models over `List Char`
matching the ECMAScript semantics on the inputs that occur here.  JavaScript
numbers that only ever hold finite decimal values are modelled as `ℚ`.

The server-side core (Hours Accumulator and the store it mutates) is not part
of the repository sources; where a claim needs it, it is modelled from the
spec and marked as such in its doc comment.
-/

namespace Tracker

/-- Model of the ECMAScript whitespace test used by `String.prototype.trim`
(restricted to the ASCII whitespace characters relevant here). -/
def jsIsSpace (c : Char) : Bool :=
  c == ' ' || c == '\t' || c == '\n' || c == '\r'

/-- Model of `String.prototype.trim` on the character list: drop whitespace
from both ends. -/
def trimChars (l : List Char) : List Char :=
  ((l.dropWhile jsIsSpace).reverse.dropWhile jsIsSpace).reverse

/-- `String.prototype.trim` lifted back to `String`. -/
def jsTrim (s : String) : String :=
  ⟨trimChars s.data⟩

/-- Model of `String.prototype.split(',')`: split at every comma; the result
is never empty, and splitting the empty string yields `[""]`, exactly as in
ECMAScript. -/
def splitComma : List Char → List (List Char)
  | [] => [[]]
  | c :: cs =>
    match splitComma cs with
    | [] => [[]]
    | h :: t => if c = ',' then [] :: h :: t else (c :: h) :: t

/-- Model of `Array.prototype.join(', ')` on character lists. -/
def joinCommaSpace : List (List Char) → List Char
  | [] => []
  | [x] => x
  | x :: y :: rest => x ++ ',' :: ' ' :: joinCommaSpace (y :: rest)

/-- JavaScript truthiness of a string: a string is falsy exactly when it is
empty.  `!s` in the source is `jsStrFalsy s`. -/
def jsStrFalsy (s : String) : Bool :=
  s.data.isEmpty

/-- The test `!formData.x.trim()` from the source: trim, then truthiness. -/
def blankAfterTrim (s : String) : Bool :=
  (trimChars s.data).isEmpty

/-- `parseFloat(value) || 0` from `TaskForm.handleChange`: a failed parse
(`NaN`, modelled as `none`) is falsy, and so is a parsed `0`; both become `0`. -/
def jsParseOrZero (p : Option ℚ) : ℚ :=
  match p with
  | none => 0
  | some x => if x = 0 then 0 else x

/-! ## Data model (`types/employee.ts`, `types/task.ts`) -/

/-- `Employee` from `types/employee.ts`: the API payload, with `emp_skills`
as a list of strings. -/
structure Employee where
  ID : String
  emp_Id : String
  emp_name : String
  emp_designation : String
  emp_skills : List String
  date_of_join : String
  created_date : String
  created_by : String
  last_updated_date : String
  last_updated_by : String
  deriving Repr, DecidableEq

/-- `EmployeeFormData` from `types/employee.ts`: like `Employee` but with
`emp_skills` as the single comma-separated form string. -/
structure EmployeeFormData where
  ID : String
  emp_Id : String
  emp_name : String
  emp_designation : String
  emp_skills : String
  date_of_join : String
  created_date : String
  created_by : String
  last_updated_date : String
  last_updated_by : String
  deriving Repr, DecidableEq

/-- `Task` from `types/task.ts`.  `TaskFormData` extends it with nothing, so
one structure serves for both. -/
structure Task where
  task_id : String
  task_name : String
  task_description : String
  expected_outcome : String
  emp_id : String
  project_ID : String
  estimated_hours : ℚ
  actual_hours : ℚ
  start_date : String
  completion_date : String
  created_date : String
  created_by : String
  last_updated_date : String
  last_updated_by : String
  deriving Repr, DecidableEq

/-- `TaskFormData extends Task {}` in `types/task.ts`. -/
abbrev TaskFormData := Task

/-! ## Validation (`EmployeeForm.validateForm`, `TaskForm.validateForm`) -/

/-- The fields `EmployeeForm`'s markup exposes as inputs (the possible
`e.target.name` values) and that its `errors` map is keyed by. -/
inductive EField where
  | emp_Id | emp_name | emp_designation | emp_skills | date_of_join
  deriving Repr, DecidableEq

/-- The fields `TaskForm`'s markup exposes as inputs and that its `errors`
map is keyed by. -/
inductive TField where
  | task_name | emp_id | project_ID | estimated_hours
  | start_date | completion_date | task_description | expected_outcome
  deriving Repr, DecidableEq

/-- The local (non-API) part of `EmployeeForm.validateForm`: the `newErrors`
object, as the list of field/message pairs in insertion order.  Note that
`emp_Id`, `emp_name` and `emp_designation` are tested with `.trim()` but
`date_of_join` is tested bare (`!formData.date_of_join`). -/
def employeeValidate (fd : EmployeeFormData) : List (EField × String) :=
  (if blankAfterTrim fd.emp_Id then [(EField.emp_Id, "Employee ID is required")] else []) ++
  (if blankAfterTrim fd.emp_name then [(EField.emp_name, "Employee name is required")] else []) ++
  (if blankAfterTrim fd.emp_designation then [(EField.emp_designation, "Designation is required")] else []) ++
  (if jsStrFalsy fd.date_of_join then [(EField.date_of_join, "Date of joining is required")] else [])

/-- The local part of `TaskForm.validateForm`: `task_name`, `emp_id` and
`project_ID` are tested with `.trim()`, `start_date` bare, and
`estimated_hours` with `<= 0`. -/
def taskValidate (fd : TaskFormData) : List (TField × String) :=
  (if blankAfterTrim fd.task_name then [(TField.task_name, "Task name is required")] else []) ++
  (if blankAfterTrim fd.emp_id then [(TField.emp_id, "Employee ID is required")] else []) ++
  (if blankAfterTrim fd.project_ID then [(TField.project_ID, "Project ID is required")] else []) ++
  (if jsStrFalsy fd.start_date then [(TField.start_date, "Start date is required")] else []) ++
  (if fd.estimated_hours ≤ 0 then [(TField.estimated_hours, "Estimated hours must be greater than 0")] else [])

/-- The set of fields carrying an error, for an error list. -/
def errFields {α : Type} (errs : List (α × String)) : List α :=
  errs.map Prod.fst

/-! ## `handleChange` (`EmployeeForm.handleChange`, `TaskForm.handleChange`) -/

/-- `{...prev, [name]: value}` for the employee form: every input is a text
or date input, so the stored value is the raw string. -/
def setEField (fd : EmployeeFormData) (f : EField) (v : String) : EmployeeFormData :=
  match f with
  | EField.emp_Id => { fd with emp_Id := v }
  | EField.emp_name => { fd with emp_name := v }
  | EField.emp_designation => { fd with emp_designation := v }
  | EField.emp_skills => { fd with emp_skills := v }
  | EField.date_of_join => { fd with date_of_join := v }

/-- Read an employee form field back out. -/
def getEField (fd : EmployeeFormData) (f : EField) : String :=
  match f with
  | EField.emp_Id => fd.emp_Id
  | EField.emp_name => fd.emp_name
  | EField.emp_designation => fd.emp_designation
  | EField.emp_skills => fd.emp_skills
  | EField.date_of_join => fd.date_of_join

/-- `EmployeeForm.handleChange`: set the named field to the event value, and
when the errors map holds a truthy message for that field, overwrite it with
the (falsy) empty string.  The errors map is modelled as a total function to
`String`, with `""` standing for both a missing and a cleared entry. -/
def employeeHandleChange (fd : EmployeeFormData) (errs : EField → String)
    (f : EField) (v : String) : EmployeeFormData × (EField → String) :=
  (setEField fd f v,
    if errs f = "" then errs else fun g => if g = f then "" else errs g)

/-- A task form field's value: the string fields on the left, the numeric
`estimated_hours` on the right. -/
def getTField (fd : TaskFormData) (f : TField) : String ⊕ ℚ :=
  match f with
  | TField.task_name => Sum.inl fd.task_name
  | TField.emp_id => Sum.inl fd.emp_id
  | TField.project_ID => Sum.inl fd.project_ID
  | TField.estimated_hours => Sum.inr fd.estimated_hours
  | TField.start_date => Sum.inl fd.start_date
  | TField.completion_date => Sum.inl fd.completion_date
  | TField.task_description => Sum.inl fd.task_description
  | TField.expected_outcome => Sum.inl fd.expected_outcome

/-- `{...prev, [name]: type === 'number' ? parseFloat(value) || 0 : value}`
for the task form.  In the markup only `estimated_hours` is a
`type="number"` input, so exactly that field goes through
`parseFloat(value) || 0`; `p` is the result of `parseFloat(value)` (`none`
for `NaN`, supplied by the environment). -/
def setTField (fd : TaskFormData) (f : TField) (v : String) (p : Option ℚ) :
    TaskFormData :=
  match f with
  | TField.task_name => { fd with task_name := v }
  | TField.emp_id => { fd with emp_id := v }
  | TField.project_ID => { fd with project_ID := v }
  | TField.estimated_hours => { fd with estimated_hours := jsParseOrZero p }
  | TField.start_date => { fd with start_date := v }
  | TField.completion_date => { fd with completion_date := v }
  | TField.task_description => { fd with task_description := v }
  | TField.expected_outcome => { fd with expected_outcome := v }

/-- `TaskForm.handleChange`: same shape as the employee form's. -/
def taskHandleChange (fd : TaskFormData) (errs : TField → String)
    (f : TField) (v : String) (p : Option ℚ) : TaskFormData × (TField → String) :=
  (setTField fd f v p,
    if errs f = "" then errs else fun g => if g = f then "" else errs g)

/-! ## Submit flow (`EmployeeForm.handleSubmit`, `TaskForm.handleSubmit`) -/

/-- The `employeeApi` operations `handleSubmit`/`validateForm` can invoke. -/
inductive EApi where
  | validateApi | create | update
  deriving Repr, DecidableEq

/-- The `taskApi` operations `handleSubmit`/`validateForm` can invoke. -/
inductive TApi where
  | validateApi | create | update
  deriving Repr, DecidableEq

/-- The sequence of API calls one run of `EmployeeForm.handleSubmit` makes.
`isUpdate` is `!!employee`; `apiValidateOk` is whether the server-side
`validateEmployee` call resolves (rather than throws).  When the local
`newErrors` object is non-empty, `validateForm` returns `false` before any
API call, and `handleSubmit` returns without writing. -/
def employeeSubmitTrace (fd : EmployeeFormData) (isUpdate apiValidateOk : Bool) :
    List EApi :=
  if employeeValidate fd = [] then
    if apiValidateOk then
      [EApi.validateApi, if isUpdate then EApi.update else EApi.create]
    else [EApi.validateApi]
  else []

/-- The sequence of API calls one run of `TaskForm.handleSubmit` makes. -/
def taskSubmitTrace (fd : TaskFormData) (isUpdate apiValidateOk : Bool) :
    List TApi :=
  if taskValidate fd = [] then
    if apiValidateOk then
      [TApi.validateApi, if isUpdate then TApi.update else TApi.create]
    else [TApi.validateApi]
  else []

/-! ## Skills encoding (`EmployeeForm.useEffect` / `handleSubmit`) -/

/-- `employee.emp_skills.join(', ')` from `EmployeeForm.useEffect`: the form
string shown when an existing employee is loaded. -/
def loadSkills (skills : List String) : String :=
  ⟨joinCommaSpace (skills.map String.data)⟩

/-- `formData.emp_skills.split(',').map(skill => skill.trim())` from
`EmployeeForm.handleSubmit` (and `validateForm`): the list sent to the API. -/
def submitSkills (s : String) : List String :=
  (splitComma s.data).map fun l => String.mk (trimChars l)

/-! ## Hours Accumulator (spec-modelled)

The hours endpoint is server-side code absent from the repository sources;
only the spec describes it.  Sections 4.3 and 6 give the contract
(`addTaskHours(taskId, delta)`, rejecting negative deltas with a validation
error), and section 9 records that the implementation follows the two-step
"read current total, write incremented total" pattern against the store.
Both are modelled here: `addTaskHours` is one sequential run of the
endpoint, and the read/write steps are exposed separately so that
interleavings of concurrent runs can be examined. -/

/-- The Entity Store restricted to what the hours endpoint touches: Task
records keyed by `task_id`. -/
def Store : Type := List (String × Task)

/-- Primary-key lookup in the store. -/
def lookupTask : Store → String → Option Task
  | [], _ => none
  | (k, t) :: rest, id => if k = id then some t else lookupTask rest id

/-- Targeted update of one record by primary key (keys are unique in the
store; the first hit is replaced). -/
def storeWrite : Store → String → Task → Store
  | [], _, _ => []
  | (k, t) :: rest, id, t' =>
    if k = id then (k, t') :: rest else (k, t) :: storeWrite rest id t'

/-- Modelled from the spec: step one of the hours endpoint — read the task's
current `actual_hours` (section 9's "read current total"). -/
def hoursRead (s : Store) (id : String) : Option ℚ :=
  (lookupTask s id).map fun t => t.actual_hours

/-- Modelled from the spec: step two of the hours endpoint — write back the
incremented total (section 9's "write incremented total"). -/
def hoursWrite (s : Store) (id : String) (total : ℚ) : Store :=
  match lookupTask s id with
  | none => s
  | some t => storeWrite s id { t with actual_hours := total }

/-- Errors `addTaskHours` can fail with (section 7: `FieldValidationError`
for a negative delta, `NotFoundError` for a missing task). -/
inductive HoursError where
  | validationError | notFound
  deriving Repr, DecidableEq

/-- Modelled from the spec: one sequential run of
`addTaskHours(taskId, delta)` (sections 4.3 and 6): reject a negative delta
with a validation error, otherwise read the current total and write the
incremented total, returning the new total. -/
def addTaskHours (s : Store) (id : String) (delta : ℚ) :
    Except HoursError (Store × ℚ) :=
  if delta < 0 then Except.error HoursError.validationError
  else
    match hoursRead s id with
    | none => Except.error HoursError.notFound
    | some r => Except.ok (hoursWrite s id (r + delta), r + delta)

/-- The store a caller is left with after `addTaskHours`: unchanged when the
call failed. -/
def runAddTaskHours (s : Store) (id : String) (delta : ℚ) : Store :=
  match addTaskHours s id delta with
  | Except.ok (s', _) => s'
  | Except.error _ => s

/-- Sequential composition of `addTaskHours` calls with the given deltas. -/
def applyDeltas (s : Store) (id : String) (deltas : List ℚ) : Store :=
  match deltas with
  | [] => s
  | d :: rest => applyDeltas (runAddTaskHours s id d) id rest

/-- One atomic store access of an in-flight `addTaskHours` request: caller
`i` either performs its read step or its write step. -/
inductive HoursStep where
  | read (i : ℕ)
  | write (i : ℕ)

/-- Modelled from the spec: a concurrent execution of several in-flight
`addTaskHours` requests on one task.  Per section 9 each request performs a
read step and then a write step as separate store accesses; the store
serializes the individual accesses, so an execution is a list of steps.
`regs i` holds the total caller `i` has read so far (`none` before its read
step, in which case a write step is a no-op). -/
def runSchedule (id : String) (deltas : ℕ → ℚ) :
    List HoursStep → Store → (ℕ → Option ℚ) → Store
  | [], s, _ => s
  | HoursStep.read i :: rest, s, regs =>
    runSchedule id deltas rest s fun j => if j = i then hoursRead s id else regs j
  | HoursStep.write i :: rest, s, regs =>
    match regs i with
    | none => runSchedule id deltas rest s regs
    | some r => runSchedule id deltas rest (hoursWrite s id (r + deltas i)) regs

/-- Written from the spec's words (section 3): chronological comparison of
the calendar dates the forms hold, which for ISO `YYYY-MM-DD` strings is
lexicographic comparison. -/
def lexLeChars : List Char → List Char → Bool
  | [], _ => true
  | _ :: _, [] => false
  | x :: xs, y :: ys => if x = y then lexLeChars xs ys else decide (x < y)

/-- Written from the spec's words: `a` is on or before `b` as a calendar
date. -/
def specDateLe (a b : String) : Bool :=
  lexLeChars a.data b.data

/-! ## Concrete sample records used by witnesses and counterexamples -/

/-- A task form payload that passes every local validation rule. -/
def sampleTaskOk : TaskFormData :=
  ⟨"", "T1", "", "", "E1", "P1", 5, 0, "2024-02-01", "", "", "current_user", "", "current_user"⟩

/-- An employee form payload that passes every local validation rule. -/
def sampleEmpOk : EmployeeFormData :=
  ⟨"", "E1", "A", "Eng", "React", "2024-01-01", "", "current_user", "", "current_user"⟩

/-- A stored task with four hours already accumulated. -/
def sampleStoredTask : Task :=
  ⟨"T1", "T1", "", "", "E1", "P1", 5, 4, "2024-02-01", "", "", "current_user", "", "current_user"⟩

/-- A store holding exactly `sampleStoredTask`. -/
def sampleStore : Store :=
  [("T1", sampleStoredTask)]

/-- The deltas of the spec's two-caller scenario: caller 0 adds 2, caller 1
adds 3. -/
def sampleDeltas : ℕ → ℚ :=
  fun i => if i = 0 then 2 else 3

/-! ## Theorems -/

/-- C1: for N `addTaskHours` calls summing to a known total delta, the final
`actualHours` should equal the pre-existing value plus the sum, each delta
applied exactly once.  The sequential run indeed yields 4 + 5 = 9, but with
the spec-documented two-step read/write pattern an interleaving of the two
callers (both read 4, then both write) loses caller 0's update and leaves 7
instead of 9. -/
theorem addTaskHours_lost_update_eval :
    ((lookupTask (applyDeltas sampleStore "T1" [2, 3]) "T1").map fun t => t.actual_hours) =
      some 9 ∧
    ((lookupTask
        (runSchedule "T1" sampleDeltas
          [HoursStep.read 0, HoursStep.read 1, HoursStep.write 0, HoursStep.write 1]
          sampleStore fun _ => none) "T1").map fun t => t.actual_hours) = some 7 ∧
    (7 : ℚ) ≠ 4 + (2 + 3) := by
  refine ⟨?_, ?_, by norm_num⟩ <;>
    norm_num [applyDeltas, runAddTaskHours, addTaskHours, hoursRead, hoursWrite,
      lookupTask, storeWrite, runSchedule, sampleStore, sampleStoredTask, sampleDeltas]

/-- C7: a negative delta makes `addTaskHours` fail with a validation error
and leaves the store — in particular the task's `actualHours` — unchanged. -/
theorem addTaskHours_negative_delta (s : Store) (id : String) (d : ℚ) (hd : d < 0) :
    addTaskHours s id d = Except.error HoursError.validationError ∧
    runAddTaskHours s id d = s := by
  have h : addTaskHours s id d = Except.error HoursError.validationError := by
    unfold addTaskHours
    rw [if_pos hd]
  exact ⟨h, by unfold runAddTaskHours; rw [h]⟩

/-- Witness for C7 at the concrete call `addTaskHours("T1", -1)`. -/
theorem addTaskHours_negative_delta_witness :
    addTaskHours sampleStore "T1" (-1) = Except.error HoursError.validationError ∧
    runAddTaskHours sampleStore "T1" (-1) = sampleStore :=
  addTaskHours_negative_delta sampleStore "T1" (-1) (by norm_num)

/-- C6 counterexample: a task payload whose `completion_date` is present and
strictly before its `start_date` is nevertheless accepted (empty error
set), so acceptance does not imply `completionDate ≥ startDate`. -/
theorem completion_before_start_accepted :
    taskValidate { sampleTaskOk with completion_date := "2024-01-01" } = [] ∧
    ({ sampleTaskOk with completion_date := "2024-01-01" } : TaskFormData).completion_date ≠ "" ∧
    specDateLe ({ sampleTaskOk with completion_date := "2024-01-01" } : TaskFormData).start_date
      ({ sampleTaskOk with completion_date := "2024-01-01" } : TaskFormData).completion_date = false := by
  refine ⟨by decide, by decide, by decide⟩

/-- C6 amended: task validation never inspects `completion_date` at all —
its result is unchanged under any replacement of that field, so payloads
with `completionDate < startDate` are accepted whenever the other rules
pass. -/
theorem taskValidate_ignores_completion (fd : TaskFormData) (c : String) :
    taskValidate { fd with completion_date := c } = taskValidate fd := rfl

/-- A string is JavaScript-falsy exactly when it is the empty string. -/
lemma jsStrFalsy_iff (s : String) : jsStrFalsy s = true ↔ s = "" := by
  cases s with
  | mk data =>
    simp [jsStrFalsy, String.ext_iff]

/-- Any task payload whose `estimated_hours` is at most 0 picks up the
`estimated_hours` error. -/
lemma taskValidate_est_le (fd : TaskFormData) (h : fd.estimated_hours ≤ 0) :
    TField.estimated_hours ∈ errFields (taskValidate fd) ∧ taskValidate fd ≠ [] := by
  cases h1 : blankAfterTrim fd.task_name <;> cases h2 : blankAfterTrim fd.emp_id <;>
    cases h3 : blankAfterTrim fd.project_ID <;> cases h4 : jsStrFalsy fd.start_date <;>
    simp [taskValidate, errFields, h1, h2, h3, h4, h]

/-- C2: any task payload with `estimatedHours ≤ 0` is rejected with an
`estimated_hours` error, and a non-numeric `estimatedHours` input (a failed
`parseFloat`, coerced to 0 by `handleChange`) leads to the same rejection. -/
theorem estimated_hours_rule :
    (∀ fd : TaskFormData, fd.estimated_hours ≤ 0 →
      TField.estimated_hours ∈ errFields (taskValidate fd) ∧ taskValidate fd ≠ []) ∧
    (∀ (fd : TaskFormData) (errs : TField → String) (v : String),
      (taskHandleChange fd errs TField.estimated_hours v none).1.estimated_hours = 0 ∧
      TField.estimated_hours ∈
        errFields (taskValidate (taskHandleChange fd errs TField.estimated_hours v none).1) ∧
      taskValidate (taskHandleChange fd errs TField.estimated_hours v none).1 ≠ []) := by
  refine ⟨fun fd h => taskValidate_est_le fd h, fun fd errs v => ?_⟩
  have h0 : (taskHandleChange fd errs TField.estimated_hours v none).1.estimated_hours = 0 := rfl
  exact ⟨h0, taskValidate_est_le _ (le_of_eq h0)⟩

/-- Witness for C2 at a concrete payload with `estimated_hours = 0`. -/
theorem estimated_hours_rule_witness :
    TField.estimated_hours ∈ errFields (taskValidate { sampleTaskOk with estimated_hours := 0 }) ∧
    taskValidate { sampleTaskOk with estimated_hours := 0 } ≠ [] :=
  estimated_hours_rule.1 { sampleTaskOk with estimated_hours := 0 } (by norm_num [sampleTaskOk])

/-- C3 counterexample: with the spec's notion of a missing field (blank
after trimming), a payload whose `date_of_join` is a single space has a
missing `date_of_join` yet `validateForm` returns the empty error set, so
the error set is not exactly the set of missing fields. -/
theorem employee_missing_fields_cex :
    employeeValidate { sampleEmpOk with date_of_join := " " } = [] ∧
    blankAfterTrim ({ sampleEmpOk with date_of_join := " " } : EmployeeFormData).date_of_join = true ∧
    ({ sampleEmpOk with date_of_join := " " } : EmployeeFormData).date_of_join ≠ "" := by
  refine ⟨by decide, by decide, by decide⟩

/-- C3 amended: the error set of `EmployeeForm.validateForm` is exactly the
set of missing fields among the four checked ones, where `emp_Id`,
`emp_name` and `emp_designation` count as missing when blank after
trimming, but `date_of_join` counts as missing only when it is the literal
empty string (it is tested untrimmed). -/
theorem employee_missing_fields (fd : EmployeeFormData) :
    (EField.emp_Id ∈ errFields (employeeValidate fd) ↔ blankAfterTrim fd.emp_Id = true) ∧
    (EField.emp_name ∈ errFields (employeeValidate fd) ↔ blankAfterTrim fd.emp_name = true) ∧
    (EField.emp_designation ∈ errFields (employeeValidate fd) ↔
      blankAfterTrim fd.emp_designation = true) ∧
    (EField.date_of_join ∈ errFields (employeeValidate fd) ↔ fd.date_of_join = "") ∧
    EField.emp_skills ∉ errFields (employeeValidate fd) ∧
    (employeeValidate fd ≠ [] ↔
      (blankAfterTrim fd.emp_Id = true ∨ blankAfterTrim fd.emp_name = true ∨
        blankAfterTrim fd.emp_designation = true ∨ fd.date_of_join = "")) := by
  have hd := jsStrFalsy_iff fd.date_of_join
  cases h1 : blankAfterTrim fd.emp_Id <;> cases h2 : blankAfterTrim fd.emp_name <;>
    cases h3 : blankAfterTrim fd.emp_designation <;> cases h4 : jsStrFalsy fd.date_of_join <;>
    rw [h4] at hd <;>
    simp [employeeValidate, errFields, h1, h2, h3, h4, ← hd]

/-- C4 counterexample: `start_date` is tested without trimming, so a
whitespace-only `start_date` is not treated as missing: the payload with
`start_date = " "` is accepted while the same payload with `start_date = ""`
is rejected, although `" "` trims to the empty string. -/
theorem whitespace_start_date_cex :
    taskValidate { sampleTaskOk with start_date := " " } = [] ∧
    taskValidate { sampleTaskOk with start_date := "" } ≠ [] ∧
    blankAfterTrim " " = true := by
  refine ⟨by decide, by decide, by decide⟩

/-- C4 amended: trimming before the emptiness test applies to the string
fields `emp_Id`, `emp_name`, `emp_designation`, `task_name`, `emp_id` and
`project_ID` — for those, any value that trims to the empty string is
treated exactly like the empty string and produces the required-field error
— but not to `date_of_join` and `start_date`, which are compared untrimmed
(see the counterexample). -/
theorem whitespace_treated_as_missing (s : String) (hs : blankAfterTrim s = true) :
    (∀ fd : EmployeeFormData,
      employeeValidate { fd with emp_Id := s } = employeeValidate { fd with emp_Id := "" } ∧
      employeeValidate { fd with emp_name := s } = employeeValidate { fd with emp_name := "" } ∧
      employeeValidate { fd with emp_designation := s } =
        employeeValidate { fd with emp_designation := "" } ∧
      EField.emp_Id ∈ errFields (employeeValidate { fd with emp_Id := s }) ∧
      EField.emp_name ∈ errFields (employeeValidate { fd with emp_name := s }) ∧
      EField.emp_designation ∈ errFields (employeeValidate { fd with emp_designation := s })) ∧
    (∀ fd : TaskFormData,
      taskValidate { fd with task_name := s } = taskValidate { fd with task_name := "" } ∧
      taskValidate { fd with emp_id := s } = taskValidate { fd with emp_id := "" } ∧
      taskValidate { fd with project_ID := s } = taskValidate { fd with project_ID := "" } ∧
      TField.task_name ∈ errFields (taskValidate { fd with task_name := s }) ∧
      TField.emp_id ∈ errFields (taskValidate { fd with emp_id := s }) ∧
      TField.project_ID ∈ errFields (taskValidate { fd with project_ID := s })) := by
  have he : blankAfterTrim "" = true := by decide
  constructor
  · intro fd
    cases h1 : blankAfterTrim fd.emp_Id <;> cases h2 : blankAfterTrim fd.emp_name <;>
      cases h3 : blankAfterTrim fd.emp_designation <;> cases h4 : jsStrFalsy fd.date_of_join <;>
      simp [employeeValidate, errFields, h1, h2, h3, h4, hs, he]
  · intro fd
    cases h1 : blankAfterTrim fd.task_name <;> cases h2 : blankAfterTrim fd.emp_id <;>
      cases h3 : blankAfterTrim fd.project_ID <;> cases h4 : jsStrFalsy fd.start_date <;>
      cases h5 : decide (fd.estimated_hours ≤ 0) <;>
      simp_all [taskValidate, errFields, hs, he]

/-- Witness for C4 (amended) at `s = " "` on the sample payloads. -/
theorem whitespace_treated_as_missing_witness :
    employeeValidate { sampleEmpOk with emp_Id := " " } =
      employeeValidate { sampleEmpOk with emp_Id := "" } ∧
    employeeValidate { sampleEmpOk with emp_name := " " } =
      employeeValidate { sampleEmpOk with emp_name := "" } ∧
    employeeValidate { sampleEmpOk with emp_designation := " " } =
      employeeValidate { sampleEmpOk with emp_designation := "" } ∧
    EField.emp_Id ∈ errFields (employeeValidate { sampleEmpOk with emp_Id := " " }) ∧
    EField.emp_name ∈ errFields (employeeValidate { sampleEmpOk with emp_name := " " }) ∧
    EField.emp_designation ∈
      errFields (employeeValidate { sampleEmpOk with emp_designation := " " }) :=
  (whitespace_treated_as_missing " " (by decide)).1 sampleEmpOk

/-- C5: neither form ever partially commits: when local validation produces
any error, `handleSubmit` makes no API call at all (in particular no store
write), and a create/update call can appear in the trace only when the
local error set is empty. -/
theorem no_partial_commit :
    (∀ (fd : EmployeeFormData) (u a : Bool),
      employeeValidate fd ≠ [] → employeeSubmitTrace fd u a = []) ∧
    (∀ (fd : EmployeeFormData) (u a : Bool),
      EApi.create ∈ employeeSubmitTrace fd u a ∨ EApi.update ∈ employeeSubmitTrace fd u a →
      employeeValidate fd = []) ∧
    (∀ (fd : TaskFormData) (u a : Bool),
      taskValidate fd ≠ [] → taskSubmitTrace fd u a = []) ∧
    (∀ (fd : TaskFormData) (u a : Bool),
      TApi.create ∈ taskSubmitTrace fd u a ∨ TApi.update ∈ taskSubmitTrace fd u a →
      taskValidate fd = []) := by
  refine ⟨fun fd u a h => ?_, fun fd u a h => ?_, fun fd u a h => ?_, fun fd u a h => ?_⟩
  · simp [employeeSubmitTrace, h]
  · by_cases he : employeeValidate fd = []
    · exact he
    · simp [employeeSubmitTrace, he] at h
  · simp [taskSubmitTrace, h]
  · by_cases he : taskValidate fd = []
    · exact he
    · simp [taskSubmitTrace, he] at h

/-- Witness for C5: a payload with every field empty fails validation and
produces an empty call trace. -/
theorem no_partial_commit_witness :
    employeeValidate ⟨"", "", "", "", "", "", "", "", "", ""⟩ ≠ [] ∧
    employeeSubmitTrace ⟨"", "", "", "", "", "", "", "", "", ""⟩ false true = [] :=
  ⟨by decide, no_partial_commit.1 ⟨"", "", "", "", "", "", "", "", "", ""⟩ false true (by decide)⟩

/-- C8: validation does not short-circuit: the error list's length is the
number of violated field rules, and every violated rule contributes its
field to the error set, for both forms simultaneously. -/
theorem validation_reports_all_errors (fd : EmployeeFormData) (td : TaskFormData) :
    (employeeValidate fd).length =
      ((if blankAfterTrim fd.emp_Id then 1 else 0) + (if blankAfterTrim fd.emp_name then 1 else 0) +
        (if blankAfterTrim fd.emp_designation then 1 else 0) +
        (if jsStrFalsy fd.date_of_join then 1 else 0)) ∧
    (taskValidate td).length =
      ((if blankAfterTrim td.task_name then 1 else 0) + (if blankAfterTrim td.emp_id then 1 else 0) +
        (if blankAfterTrim td.project_ID then 1 else 0) + (if jsStrFalsy td.start_date then 1 else 0) +
        (if td.estimated_hours ≤ 0 then 1 else 0)) ∧
    (blankAfterTrim fd.emp_Id = true → EField.emp_Id ∈ errFields (employeeValidate fd)) ∧
    (blankAfterTrim fd.emp_name = true → EField.emp_name ∈ errFields (employeeValidate fd)) ∧
    (blankAfterTrim fd.emp_designation = true →
      EField.emp_designation ∈ errFields (employeeValidate fd)) ∧
    (jsStrFalsy fd.date_of_join = true → EField.date_of_join ∈ errFields (employeeValidate fd)) ∧
    (blankAfterTrim td.task_name = true → TField.task_name ∈ errFields (taskValidate td)) ∧
    (blankAfterTrim td.emp_id = true → TField.emp_id ∈ errFields (taskValidate td)) ∧
    (blankAfterTrim td.project_ID = true → TField.project_ID ∈ errFields (taskValidate td)) ∧
    (jsStrFalsy td.start_date = true → TField.start_date ∈ errFields (taskValidate td)) ∧
    (td.estimated_hours ≤ 0 → TField.estimated_hours ∈ errFields (taskValidate td)) := by
  refine ⟨?_, ?_, ?_, ?_, ?_, ?_, ?_, ?_, ?_, ?_, ?_⟩
  · cases h1 : blankAfterTrim fd.emp_Id <;> cases h2 : blankAfterTrim fd.emp_name <;>
      cases h3 : blankAfterTrim fd.emp_designation <;> cases h4 : jsStrFalsy fd.date_of_join <;>
      simp [employeeValidate, h1, h2, h3, h4]
  · by_cases h5 : td.estimated_hours ≤ 0 <;>
      cases h1 : blankAfterTrim td.task_name <;> cases h2 : blankAfterTrim td.emp_id <;>
      cases h3 : blankAfterTrim td.project_ID <;> cases h4 : jsStrFalsy td.start_date <;>
      simp [taskValidate, h1, h2, h3, h4, h5]
  · intro h
    cases h2 : blankAfterTrim fd.emp_name <;> cases h3 : blankAfterTrim fd.emp_designation <;>
      cases h4 : jsStrFalsy fd.date_of_join <;> simp [employeeValidate, errFields, h, h2, h3, h4]
  · intro h
    cases h1 : blankAfterTrim fd.emp_Id <;> cases h3 : blankAfterTrim fd.emp_designation <;>
      cases h4 : jsStrFalsy fd.date_of_join <;> simp [employeeValidate, errFields, h, h1, h3, h4]
  · intro h
    cases h1 : blankAfterTrim fd.emp_Id <;> cases h2 : blankAfterTrim fd.emp_name <;>
      cases h4 : jsStrFalsy fd.date_of_join <;> simp [employeeValidate, errFields, h, h1, h2, h4]
  · intro h
    cases h1 : blankAfterTrim fd.emp_Id <;> cases h2 : blankAfterTrim fd.emp_name <;>
      cases h3 : blankAfterTrim fd.emp_designation <;>
      simp [employeeValidate, errFields, h, h1, h2, h3]
  · intro h
    by_cases h5 : td.estimated_hours ≤ 0 <;>
      cases h2 : blankAfterTrim td.emp_id <;> cases h3 : blankAfterTrim td.project_ID <;>
      cases h4 : jsStrFalsy td.start_date <;> simp [taskValidate, errFields, h, h2, h3, h4, h5]
  · intro h
    by_cases h5 : td.estimated_hours ≤ 0 <;>
      cases h1 : blankAfterTrim td.task_name <;> cases h3 : blankAfterTrim td.project_ID <;>
      cases h4 : jsStrFalsy td.start_date <;> simp [taskValidate, errFields, h, h1, h3, h4, h5]
  · intro h
    by_cases h5 : td.estimated_hours ≤ 0 <;>
      cases h1 : blankAfterTrim td.task_name <;> cases h2 : blankAfterTrim td.emp_id <;>
      cases h4 : jsStrFalsy td.start_date <;> simp [taskValidate, errFields, h, h1, h2, h4, h5]
  · intro h
    by_cases h5 : td.estimated_hours ≤ 0 <;>
      cases h1 : blankAfterTrim td.task_name <;> cases h2 : blankAfterTrim td.emp_id <;>
      cases h3 : blankAfterTrim td.project_ID <;> simp [taskValidate, errFields, h, h1, h2, h3, h5]
  · intro h
    cases h1 : blankAfterTrim td.task_name <;> cases h2 : blankAfterTrim td.emp_id <;>
      cases h3 : blankAfterTrim td.project_ID <;> cases h4 : jsStrFalsy td.start_date <;>
      simp [taskValidate, errFields, h, h1, h2, h3, h4]

/-- Witness for C8 at a payload violating two employee rules and one task
rule. -/
theorem validation_reports_all_errors_witness :
    (employeeValidate { sampleEmpOk with emp_Id := " ", emp_name := "" }).length = 2 ∧
    EField.emp_Id ∈ errFields (employeeValidate { sampleEmpOk with emp_Id := " ", emp_name := "" }) ∧
    TField.estimated_hours ∈
      errFields (taskValidate { sampleTaskOk with estimated_hours := -1 }) := by
  have h := validation_reports_all_errors
    { sampleEmpOk with emp_Id := " ", emp_name := "" }
    { sampleTaskOk with estimated_hours := -1 }
  refine ⟨?_, h.2.2.1 (by decide), h.2.2.2.2.2.2.2.2.2.2 (by norm_num [sampleTaskOk])⟩
  have hl := h.1
  simpa using hl

/-- C9: `handleChange` updates only the named field and clears at most that
field's error: for both forms, every other form field keeps its value, the
fields without inputs (ids, audit metadata, `actual_hours`) keep theirs,
every other field's error entry is untouched, and the named field's error
entry either becomes the cleared empty string or stays what it was. -/
theorem handleChange_frame :
    (∀ (fd : EmployeeFormData) (errs : EField → String) (f : EField) (v : String),
      getEField (employeeHandleChange fd errs f v).1 f = v ∧
      (∀ g, g ≠ f → getEField (employeeHandleChange fd errs f v).1 g = getEField fd g) ∧
      ((employeeHandleChange fd errs f v).1.ID = fd.ID ∧
        (employeeHandleChange fd errs f v).1.created_date = fd.created_date ∧
        (employeeHandleChange fd errs f v).1.created_by = fd.created_by ∧
        (employeeHandleChange fd errs f v).1.last_updated_date = fd.last_updated_date ∧
        (employeeHandleChange fd errs f v).1.last_updated_by = fd.last_updated_by) ∧
      (∀ g, g ≠ f → (employeeHandleChange fd errs f v).2 g = errs g) ∧
      ((employeeHandleChange fd errs f v).2 f = "" ∨
        (employeeHandleChange fd errs f v).2 f = errs f)) ∧
    (∀ (fd : TaskFormData) (errs : TField → String) (f : TField) (v : String) (p : Option ℚ),
      (∀ g, g ≠ f → getTField (taskHandleChange fd errs f v p).1 g = getTField fd g) ∧
      ((taskHandleChange fd errs f v p).1.task_id = fd.task_id ∧
        (taskHandleChange fd errs f v p).1.actual_hours = fd.actual_hours ∧
        (taskHandleChange fd errs f v p).1.created_date = fd.created_date ∧
        (taskHandleChange fd errs f v p).1.created_by = fd.created_by ∧
        (taskHandleChange fd errs f v p).1.last_updated_date = fd.last_updated_date ∧
        (taskHandleChange fd errs f v p).1.last_updated_by = fd.last_updated_by) ∧
      (∀ g, g ≠ f → (taskHandleChange fd errs f v p).2 g = errs g) ∧
      ((taskHandleChange fd errs f v p).2 f = "" ∨
        (taskHandleChange fd errs f v p).2 f = errs f)) := by
  constructor
  · intro fd errs f v
    refine ⟨?_, ?_, ?_, ?_, ?_⟩
    · cases f <;> rfl
    · intro g hg
      cases f <;> cases g <;> simp_all [employeeHandleChange, setEField, getEField]
    · cases f <;> simp [employeeHandleChange, setEField]
    · intro g hg
      by_cases h : errs f = "" <;> simp [employeeHandleChange, h, hg]
    · by_cases h : errs f = "" <;> simp [employeeHandleChange, h]
  · intro fd errs f v p
    refine ⟨?_, ?_, ?_, ?_⟩
    · intro g hg
      cases f <;> cases g <;> simp_all [taskHandleChange, setTField, getTField]
    · cases f <;> simp [taskHandleChange, setTField]
    · intro g hg
      by_cases h : errs f = "" <;> simp [taskHandleChange, h, hg]
    · by_cases h : errs f = "" <;> simp [taskHandleChange, h]

/-- Witness for C9: changing `emp_Id` leaves `emp_name` and its error entry
alone. -/
theorem handleChange_frame_witness :
    getEField (employeeHandleChange sampleEmpOk (fun _ => "x") EField.emp_Id "E2").1
        EField.emp_name =
      getEField sampleEmpOk EField.emp_name ∧
    (employeeHandleChange sampleEmpOk (fun _ => "x") EField.emp_Id "E2").2 EField.emp_name = "x" :=
  ⟨(handleChange_frame.1 sampleEmpOk (fun _ => "x") EField.emp_Id "E2").2.1
      EField.emp_name (by decide),
    (handleChange_frame.1 sampleEmpOk (fun _ => "x") EField.emp_Id "E2").2.2.2.1
      EField.emp_name (by decide)⟩

/-- `split` never returns the empty array. -/
lemma splitComma_ne_nil (l : List Char) : splitComma l ≠ [] := by
  cases l with
  | nil => simp [splitComma]
  | cons c cs =>
    simp only [splitComma]
    cases h : splitComma cs with
    | nil => simp
    | cons a b =>
      by_cases hc : c = ',' <;> simp [hc]

/-- Splitting after prepending a comma-free prefix extends the first chunk. -/
lemma splitComma_append (x : List Char) :
    ∀ l h t, ',' ∉ x → splitComma l = h :: t → splitComma (x ++ l) = (x ++ h) :: t := by
  induction x with
  | nil =>
    intro l h t _ hl
    simpa using hl
  | cons c cs ih =>
    intro l h t hx hl
    simp only [List.mem_cons, not_or] at hx
    have hc : ¬c = ',' := fun e => hx.1 e.symm
    have h2 := ih l h t hx.2 hl
    simp [splitComma, h2, hc]

/-- Trimming absorbs a leading space. -/
lemma trimChars_cons_space (l : List Char) : trimChars (' ' :: l) = trimChars l := by
  have : jsIsSpace ' ' = true := by decide
  simp [trimChars, List.dropWhile_cons, this]

/-- Character-level round trip: joining comma-free, pre-trimmed chunks with
a comma-space separator, then splitting at commas and trimming each chunk,
restores the chunks — provided there is at least one chunk. -/
lemma roundtrip_chars :
    ∀ ss : List (List Char), ss ≠ [] → (∀ x ∈ ss, ',' ∉ x ∧ trimChars x = x) →
      (splitComma (joinCommaSpace ss)).map trimChars = ss := by
  intro ss
  induction ss with
  | nil => intro h; exact absurd rfl h
  | cons x tl ih =>
    intro _ hok
    have hx := hok x (by simp)
    cases tl with
    | nil =>
      have h2 : splitComma (x ++ []) = (x ++ []) :: [] :=
        splitComma_append x [] [] [] hx.1 rfl
      simp only [List.append_nil] at h2
      simp [joinCommaSpace, h2, hx.2]
    | cons y rest =>
      have ihr := ih (by simp) fun z hz => hok z (List.mem_cons_of_mem _ hz)
      obtain ⟨h, t, hht⟩ : ∃ h t, splitComma (joinCommaSpace (y :: rest)) = h :: t := by
        cases hsc : splitComma (joinCommaSpace (y :: rest)) with
        | nil => exact absurd hsc (splitComma_ne_nil _)
        | cons a b => exact ⟨a, b, rfl⟩
      rw [hht] at ihr
      simp only [List.map_cons, List.cons.injEq] at ihr
      have hsp : splitComma (' ' :: joinCommaSpace (y :: rest)) = (' ' :: h) :: t := by
        simp [splitComma, hht]
      have hcm : splitComma (',' :: ' ' :: joinCommaSpace (y :: rest)) =
          [] :: (' ' :: h) :: t := by
        simp [splitComma, hsp]
        rw [hht]
      have happ := splitComma_append x (',' :: ' ' :: joinCommaSpace (y :: rest))
        [] ((' ' :: h) :: t) hx.1 hcm
      have hjoin : joinCommaSpace (x :: y :: rest) =
          x ++ ',' :: ' ' :: joinCommaSpace (y :: rest) := rfl
      rw [hjoin, happ]
      simp [hx.2, trimChars_cons_space, ihr.1, ihr.2]

/-- C10 counterexample: the empty skills list does not round-trip — loading
it gives the empty form string, and submitting that yields the one-element
list containing the empty string, not the empty list. -/
theorem skills_roundtrip_cex :
    submitSkills (loadSkills []) = [""] ∧ ([""] : List String) ≠ [] := by
  refine ⟨by decide, by decide⟩

/-- C10 amended: for every NON-EMPTY skills list whose elements contain no
comma and no leading or trailing whitespace, loading the list into the form
(join with a comma-space) and submitting (split at commas, trim each part)
returns the original list; the empty form string submits as the one-element
list containing the empty string, never as the empty list. -/
theorem skills_roundtrip (ss : List String) (hne : ss ≠ [])
    (hok : ∀ s ∈ ss, ',' ∉ s.data ∧ trimChars s.data = s.data) :
    submitSkills (loadSkills ss) = ss ∧ submitSkills "" = [""] := by
  constructor
  · have hchars := roundtrip_chars (ss.map String.data)
      (by simpa using hne)
      (by
        intro x hxm
        rcases List.mem_map.mp hxm with ⟨s, hs, rfl⟩
        exact hok s hs)
    show (splitComma (joinCommaSpace (ss.map String.data))).map
        (fun l => String.mk (trimChars l)) = ss
    have hmk : ∀ s : String, String.mk s.data = s := fun s => rfl
    calc (splitComma (joinCommaSpace (ss.map String.data))).map
          (fun l => String.mk (trimChars l))
        = ((splitComma (joinCommaSpace (ss.map String.data))).map trimChars).map
            String.mk := by
          rw [List.map_map]
          rfl
      _ = (ss.map String.data).map String.mk := by rw [hchars]
      _ = ss := by
          rw [List.map_map]
          have hcomp : (String.mk ∘ String.data) = id := funext fun s => hmk s
          rw [hcomp, List.map_id]
  · decide

/-- Witness for C10 (amended) at a concrete two-element skills list. -/
theorem skills_roundtrip_witness :
    submitSkills (loadSkills ["React", "Node.js"]) = ["React", "Node.js"] ∧
    submitSkills "" = [""] :=
  skills_roundtrip ["React", "Node.js"] (by decide) (by decide)

/-- Witness for C3 (amended) at the sample accepted payload. -/
theorem employee_missing_fields_witness :
    (EField.emp_Id ∈ errFields (employeeValidate sampleEmpOk) ↔
      blankAfterTrim sampleEmpOk.emp_Id = true) ∧
    (EField.emp_name ∈ errFields (employeeValidate sampleEmpOk) ↔
      blankAfterTrim sampleEmpOk.emp_name = true) ∧
    (EField.emp_designation ∈ errFields (employeeValidate sampleEmpOk) ↔
      blankAfterTrim sampleEmpOk.emp_designation = true) ∧
    (EField.date_of_join ∈ errFields (employeeValidate sampleEmpOk) ↔
      sampleEmpOk.date_of_join = "") ∧
    EField.emp_skills ∉ errFields (employeeValidate sampleEmpOk) ∧
    (employeeValidate sampleEmpOk ≠ [] ↔
      (blankAfterTrim sampleEmpOk.emp_Id = true ∨ blankAfterTrim sampleEmpOk.emp_name = true ∨
        blankAfterTrim sampleEmpOk.emp_designation = true ∨ sampleEmpOk.date_of_join = "")) :=
  employee_missing_fields sampleEmpOk

/-- Witness for C6 (amended): replacing `completion_date` on the sample
payload leaves the validation result unchanged. -/
theorem taskValidate_ignores_completion_witness :
    taskValidate { sampleTaskOk with completion_date := "1999-12-31" } =
      taskValidate sampleTaskOk :=
  taskValidate_ignores_completion sampleTaskOk "1999-12-31"

end Tracker
